import Mathlib

/-!
Shallow embedding of `jaxlib/hipsolver.py`: the shape/layout/dispatch layer
for the ROCm dense linear-algebra kernels (trsm, potrf, getrf, geqrf, orgqr,
syevd, gesvd).

Modelling conventions:
* An XLA shape (`c.get_shape(x)`) is an `AShape`: an element dtype plus a
  list of dimension sizes.
* A buffer declared in a `CustomCallWithLayout` (dtype, dimensions, layout)
  is a `Buf`.
* The external descriptor builders (`_hipblas.build_*` / `_hipsolver.build_*`)
  return `(lwork, opaque_blob)`; the blob is opaque to this layer, so a
  descriptor-build query is recorded as a `Descriptor` value carrying exactly
  the arguments passed to the builder, and the returned workspace size is an
  explicit `lwork : Nat` argument of each operation (the environment's reply).
* Each operation returns `Except Err (Descriptor × CustomCall × List Buf)`:
  the descriptor query it issued, the custom-call request it constructed, and
  the list of buffers handed back to the caller (the `GetTupleElement`
  selections, post-slicing for gesvd).  Raised Python exceptions become
  `Err` values; on an error no descriptor and no call exist at all.
-/

/-- Element dtypes flowing through the wrappers (real and complex floats, plus
the integer dtypes used for status and raw-byte workspace buffers). -/
inductive DType where
  | f32 | f64 | c64 | c128 | i8 | i32
deriving DecidableEq, Repr

/-- Embeds `_real_type`, i.e. `np.finfo(dtype).dtype`: the real counterpart of
a floating dtype.  `np.finfo` rejects integer dtypes, and the source only
applies `_real_type` to floating operands, so the integer cases (mapped to
themselves) are unreachable. -/
def DType.realType : DType → DType
  | .f32 => .f32
  | .f64 => .f64
  | .c64 => .f32
  | .c128 => .f64
  | .i8 => .i8
  | .i32 => .i32

/-- An XLA logical shape: element type and dimensions. -/
structure AShape where
  dtype : DType
  dims : List Nat
deriving DecidableEq, Repr

/-- A buffer declaration in a custom call: dtype, dimensions, and physical
layout (a permutation of dimension indices, minor-to-major as XLA writes it).
-/
structure Buf where
  dtype : DType
  dims : List Nat
  layout : List Nat
deriving DecidableEq, Repr

/-- Placeholder buffer used as the default of list lookups. -/
def noBuf : Buf := ⟨.f32, [], []⟩

/-- Python exceptions raised by the wrappers. -/
inductive Err where
  /-- A bare `assert` failed (carries no description of the operands). -/
  | assertionFailed
  /-- Tuple unpacking `m, n = dims[-2:]` failed (fewer than two dims). -/
  | unpackFailed
  /-- Indexing a dimension tuple out of range. -/
  | indexError
  /-- `ValueError("Argument mismatch for trsm, got {} and {}")`: carries the
  two conflicting shapes. -/
  | valueError (a b : AShape)
  /-- `NotImplementedError` with its message. -/
  | notImplemented (msg : String)
deriving DecidableEq, Repr

/-- True exactly for the error that describes the conflicting shapes
(`ValueError` formatting both shapes); a bare assertion failure is not
shape-descriptive. -/
def Err.describesShapes : Err → Bool
  | .valueError _ _ => true
  | _ => false

/-- True exactly for the unsupported-feature (`NotImplementedError`)
rejection. -/
def Err.isNotImpl : Err → Bool
  | .notImplemented _ => true
  | _ => false

/-- A descriptor-build query: the external builder entry point together with
the exact arguments the wrapper passed to it. -/
inductive Descriptor where
  | trsmBatched (dtype : DType) (batch m n : Nat)
      (leftSide lower transA conjA diag : Bool)
  | potrf (dtype : DType) (lower : Bool) (batch n : Nat)
  | getrfBatched (dtype : DType) (batch m : Nat)
  | getrf (dtype : DType) (batch m n : Nat)
  | geqrf (dtype : DType) (batch m n : Nat)
  | orgqr (dtype : DType) (batch m n k : Nat)
  | syevd (dtype : DType) (lower : Bool) (batch n : Nat)
  | gesvd (dtype : DType) (b m n : Nat) (computeUV fullMatrices : Bool)
deriving DecidableEq, Repr

/-- A `CustomCallWithLayout` request: kernel symbol, operand buffers with
layouts, and the declared result tuple of buffers with layouts. -/
structure CustomCall where
  kernel : String
  operands : List Buf
  results : List Buf
deriving DecidableEq, Repr

/-- Embeds `_prod`: `functools.reduce(operator.mul, xs, 1)`. -/
def prodList (xs : List Nat) : Nat := xs.foldl (· * ·) 1

/-- `tuple(range(k - 1, -1, -1))` for `k` elements: `[k-1, k-2, ..., 0]`. -/
def revRange (k : Nat) : List Nat := (List.range k).reverse

/-- Canonical matrix layout `(num_bd, num_bd + 1, num_bd - 1, ..., 0)`. -/
def matLayout (numBd : Nat) : List Nat := numBd :: (numBd + 1) :: revRange numBd

/-- The gesvd transposed-path matrix layout `(num_bd + 1, num_bd,
num_bd - 1, ..., 0)`. -/
def matLayoutT (numBd : Nat) : List Nat := (numBd + 1) :: numBd :: revRange numBd

/-- Vector layout `tuple(range(num_bd, -1, -1)) = (num_bd, ..., 0)`. -/
def vecLayout (numBd : Nat) : List Nat := revRange (numBd + 1)

/-- Batch-scalar layout `tuple(range(num_bd - 1, -1, -1))`. -/
def scalarLayout (numBd : Nat) : List Nat := revRange numBd

/-- `dims[-2]` of a shape: the second-to-last dimension (row count `m`). -/
def AShape.m (a : AShape) : Nat := a.dims.getD (a.dims.length - 2) 0

/-- `dims[-1]` of a shape: the last dimension (column count `n`). -/
def AShape.n (a : AShape) : Nat := a.dims.getD (a.dims.length - 1) 0

/-- `dims[:-2]`: the batch dimension prefix. -/
def AShape.batchDims (a : AShape) : List Nat := a.dims.take (a.dims.length - 2)

/-- `num_bd = len(batch_dims)`. -/
def AShape.numBd (a : AShape) : Nat := a.batchDims.length

/-- `batch = _prod(batch_dims)`. -/
def AShape.batch (a : AShape) : Nat := prodList a.batchDims

/-- The value `(descriptor, custom call, caller-visible buffers)` produced by
one wrapper invocation, or the exception it raised. -/
abbrev OpResult := Except Err (Descriptor × CustomCall × List Buf)

/-- The descriptor query of a successful invocation. -/
def descOf : OpResult → Option Descriptor
  | .ok (d, _, _) => some d
  | .error _ => none

/-- The custom-call request of a successful invocation. -/
def callOf : OpResult → Option CustomCall
  | .ok (_, c, _) => some c
  | .error _ => none

/-- The kernel symbol of a successful invocation. -/
def kernelOf (r : OpResult) : Option String := (callOf r).map CustomCall.kernel

/-- The declared result-tuple buffers of a successful invocation. -/
def resultsOf (r : OpResult) : List Buf :=
  match callOf r with
  | some c => c.results
  | none => []

/-- The operand buffers of a successful invocation. -/
def operandsOf (r : OpResult) : List Buf :=
  match callOf r with
  | some c => c.operands
  | none => []

/-- The caller-visible returned buffers of a successful invocation. -/
def bufsOf : OpResult → List Buf
  | .ok (_, _, bs) => bs
  | .error _ => []

/-- The `i`-th caller-visible returned buffer. -/
def bufAt (r : OpResult) (i : Nat) : Buf := (bufsOf r).getD i noBuf

/-- The `i`-th declared result-tuple buffer. -/
def resAt (r : OpResult) (i : Nat) : Buf := (resultsOf r).getD i noBuf

/-- Models `_ops.Slice(buf, (0,)*rank, limit, (1,)*rank)`: a zero-based
unit-stride slice, whose result dimensions are exactly `limit`. -/
def sliceTo (buf : Buf) (limit : List Nat) : Buf := { buf with dims := limit }

/-- Embeds `trsm` (batched triangular solve).  Argument order follows the
source: `trsm(c, a, b, left_side, lower, trans_a, conj_a, diag)`. -/
def trsm (a b : AShape) (leftSide lower transA conjA diag : Bool)
    (lwork : Nat) : OpResult :=
  let dtype := b.dtype
  -- assert len(dims) >= 2
  if b.dims.length < 2 then .error .assertionFailed else
  let m := b.m
  let n := b.n
  let batchDims := b.batchDims
  let numBd := b.numBd
  let batch := b.batch
  let k := if leftSide then m else n
  if batchDims ++ [k, k] ≠ a.dims ∨ a.dtype ≠ dtype then
    .error (.valueError a b)
  else if conjA && !transA then
    .error (.notImplemented "Conjugation without transposition not supported")
  else
    let desc := Descriptor.trsmBatched dtype batch m n leftSide lower transA
      conjA diag
    let layout := matLayout numBd
    let call : CustomCall :=
      { kernel := "hipblas_trsm_batched"
        operands := [⟨dtype, a.dims, layout⟩, ⟨dtype, b.dims, layout⟩]
        results := [⟨dtype, b.dims, layout⟩, ⟨.i8, [lwork], [0]⟩,
          ⟨.i8, [lwork], [0]⟩] }
    -- return GetTupleElement(out, 0)
    .ok (desc, call, [⟨dtype, b.dims, layout⟩])

/-- Embeds `potrf` (Cholesky).  `m, n = dims[-2:]` fails to unpack when the
operand has fewer than two dimensions; `assert m == n` guards squareness. -/
def potrf (a : AShape) (lower : Bool) (lwork : Nat) : OpResult :=
  let dtype := a.dtype
  if a.dims.length < 2 then .error .unpackFailed else
  let m := a.m
  let n := a.n
  if m ≠ n then .error .assertionFailed else
  let batchDims := a.batchDims
  let numBd := a.numBd
  let batch := a.batch
  let desc := Descriptor.potrf dtype lower batch n
  let results : List Buf :=
    [⟨dtype, batchDims ++ [n, n], matLayout numBd⟩,
     ⟨.i32, batchDims, scalarLayout numBd⟩,
     ⟨.i8, [lwork], [0]⟩]
  let call : CustomCall :=
    { kernel := "hipsolver_potrf"
      operands := [⟨dtype, batchDims ++ [n, n], matLayout numBd⟩]
      results := results }
  -- return GetTupleElement(out, 0), GetTupleElement(out, 1)
  .ok (desc, call, [results.getD 0 noBuf, results.getD 1 noBuf])

/-- Embeds `getrf` (LU).  The batched small-matrix kernel is chosen when
`batch > 1 and m == n and m // batch <= 128`, with an `int8` workspace; the
general kernel otherwise, with a dtype-typed workspace. -/
def getrf (a : AShape) (lwork : Nat) : OpResult :=
  let dtype := a.dtype
  if a.dims.length < 2 then .error .assertionFailed else
  let m := a.m
  let n := a.n
  let batchDims := a.batchDims
  let numBd := a.numBd
  let batch := a.batch
  let (desc, workspace, kernel) :=
    if batch > 1 ∧ m = n ∧ m / batch ≤ 128 then
      (Descriptor.getrfBatched dtype batch m, (⟨.i8, [lwork], [0]⟩ : Buf),
        "hipblas_getrf_batched")
    else
      (Descriptor.getrf dtype batch m n, (⟨dtype, [lwork], [0]⟩ : Buf),
        "hipsolver_getrf")
  let results : List Buf :=
    [⟨dtype, batchDims ++ [m, n], matLayout numBd⟩,
     ⟨.i32, batchDims ++ [min m n], vecLayout numBd⟩,
     ⟨.i32, batchDims, scalarLayout numBd⟩,
     workspace]
  let call : CustomCall :=
    { kernel := kernel
      operands := [⟨dtype, batchDims ++ [m, n], matLayout numBd⟩]
      results := results }
  -- return GetTupleElement(out, 0..2)
  .ok (desc, call,
    [results.getD 0 noBuf, results.getD 1 noBuf, results.getD 2 noBuf])

/-- Embeds `geqrf` (QR). -/
def geqrf (a : AShape) (lwork : Nat) : OpResult :=
  let dtype := a.dtype
  if a.dims.length < 2 then .error .assertionFailed else
  let m := a.m
  let n := a.n
  let batchDims := a.batchDims
  let numBd := a.numBd
  let batch := a.batch
  let desc := Descriptor.geqrf dtype batch m n
  let results : List Buf :=
    [⟨dtype, batchDims ++ [m, n], matLayout numBd⟩,
     ⟨dtype, batchDims ++ [min m n], vecLayout numBd⟩,
     ⟨.i32, batchDims, scalarLayout numBd⟩,
     ⟨dtype, [lwork], [0]⟩]
  let call : CustomCall :=
    { kernel := "hipsolver_geqrf"
      operands := [⟨dtype, batchDims ++ [m, n], matLayout numBd⟩]
      results := results }
  .ok (desc, call,
    [results.getD 0 noBuf, results.getD 1 noBuf, results.getD 2 noBuf])

/-- Embeds `orgqr` (product of Householder reflections).  The assertion
`tau_dims[:-1] == dims[:-2]` checks the reflector-scale vector's batch
prefix; `k = tau_dims[-1]` fails by indexing when `tau` has no dimensions.
-/
def orgqr (a tau : AShape) (lwork : Nat) : OpResult :=
  let dtype := a.dtype
  if a.dims.length < 2 then .error .assertionFailed else
  let m := a.m
  let n := a.n
  let batchDims := a.batchDims
  let numBd := a.numBd
  let batch := a.batch
  if tau.dims.take (tau.dims.length - 1) ≠ batchDims then
    .error .assertionFailed
  else if tau.dims.length = 0 then .error .indexError else
  let k := tau.dims.getD (tau.dims.length - 1) 0
  let desc := Descriptor.orgqr dtype batch m n k
  let results : List Buf :=
    [⟨dtype, batchDims ++ [m, n], matLayout numBd⟩,
     ⟨.i32, batchDims, scalarLayout numBd⟩,
     ⟨dtype, [lwork], [0]⟩]
  let call : CustomCall :=
    { kernel := "hipsolver_orgqr"
      operands := [⟨dtype, batchDims ++ [m, n], matLayout numBd⟩,
        ⟨dtype, batchDims ++ [k], vecLayout numBd⟩]
      results := results }
  .ok (desc, call, [results.getD 0 noBuf, results.getD 1 noBuf])

/-- Embeds `syevd` (symmetric/Hermitian eigendecomposition).  Eigenvalues are
declared with the real counterpart of the operand dtype. -/
def syevd (a : AShape) (lower : Bool) (lwork : Nat) : OpResult :=
  let dtype := a.dtype
  if a.dims.length < 2 then .error .assertionFailed else
  let m := a.m
  let n := a.n
  if m ≠ n then .error .assertionFailed else
  let batchDims := a.batchDims
  let numBd := a.numBd
  let batch := a.batch
  let layout := matLayout numBd
  let desc := Descriptor.syevd dtype lower batch n
  let eigvalsType := dtype.realType
  let results : List Buf :=
    [⟨dtype, a.dims, layout⟩,
     ⟨eigvalsType, batchDims ++ [n], vecLayout numBd⟩,
     ⟨.i32, batchDims, scalarLayout numBd⟩,
     ⟨dtype, [lwork], [0]⟩]
  let call : CustomCall :=
    { kernel := "hipsolver_syevd"
      operands := [⟨dtype, a.dims, layout⟩]
      results := results }
  .ok (desc, call,
    [results.getD 0 noBuf, results.getD 1 noBuf, results.getD 2 noBuf])

/-- The shared tail of `gesvd`: the economy-form slicing
`if not full_matrices: u = Slice(...); vt = Slice(...)` followed by
`return s, u, vt, info`. -/
def gesvdFinish (desc : Descriptor) (call : CustomCall) (s u vt info : Buf)
    (batchDims : List Nat) (m n : Nat) (fullMatrices : Bool) : OpResult :=
  if !fullMatrices then
    .ok (desc, call,
      [s, sliceTo u (batchDims ++ [m, min m n]),
       sliceTo vt (batchDims ++ [min m n, n]), info])
  else
    .ok (desc, call, [s, u, vt, info])

/-- Embeds `gesvd` (SVD).  When `m < n` the descriptor is built with the
swapped dimensions `(n, m)`, the matrix layout has its two minor dimensions
exchanged, and the raw tuple elements 2 and 3 are read as `vt` and `u`
respectively; otherwise the direct path is taken. -/
def gesvd (a : AShape) (fullMatrices computeUV : Bool) (lwork : Nat) :
    OpResult :=
  let dtype := a.dtype
  if a.dims.length < 2 then .error .assertionFailed else
  let m := a.m
  let n := a.n
  let batchDims := a.batchDims
  let numBd := a.numBd
  let b := a.batch
  let svDtype := dtype.realType
  if m < n then
    let desc := Descriptor.gesvd dtype b n m computeUV fullMatrices
    let matrixLayout := matLayoutT numBd
    let results : List Buf :=
      [⟨dtype, batchDims ++ [m, n], matrixLayout⟩,
       ⟨svDtype, batchDims ++ [min m n], vecLayout numBd⟩,
       ⟨dtype, batchDims ++ [n, n], matrixLayout⟩,
       ⟨dtype, batchDims ++ [m, m], matrixLayout⟩,
       ⟨.i32, batchDims, scalarLayout numBd⟩,
       ⟨dtype, [lwork], [0]⟩]
    let call : CustomCall :=
      { kernel := "hipsolver_gesvd"
        operands := [⟨dtype, batchDims ++ [m, n], matrixLayout⟩]
        results := results }
    -- s = elt 1, vt = elt 2, u = elt 3, info = elt 4
    gesvdFinish desc call (results.getD 1 noBuf) (results.getD 3 noBuf)
      (results.getD 2 noBuf) (results.getD 4 noBuf) batchDims m n fullMatrices
  else
    let desc := Descriptor.gesvd dtype b m n computeUV fullMatrices
    let matrixLayout := matLayout numBd
    let results : List Buf :=
      [⟨dtype, batchDims ++ [m, n], matrixLayout⟩,
       ⟨svDtype, batchDims ++ [min m n], vecLayout numBd⟩,
       ⟨dtype, batchDims ++ [m, m], matrixLayout⟩,
       ⟨dtype, batchDims ++ [n, n], matrixLayout⟩,
       ⟨.i32, batchDims, scalarLayout numBd⟩,
       ⟨dtype, [lwork], [0]⟩]
    let call : CustomCall :=
      { kernel := "hipsolver_gesvd"
        operands := [⟨dtype, batchDims ++ [m, n], matrixLayout⟩]
        results := results }
    -- s = elt 1, u = elt 2, vt = elt 3, info = elt 4
    gesvdFinish desc call (results.getD 1 noBuf) (results.getD 2 noBuf)
      (results.getD 3 noBuf) (results.getD 4 noBuf) batchDims m n fullMatrices

/-- `true` when an optional value is absent or satisfies the check. -/
def optAll {α : Type} (p : α → Bool) : Option α → Bool
  | none => true
  | some x => p x

/-- The layout discipline for one declared buffer, relative to a batch rank
`numBd` and the matrix layout `mat` the operation uses: a matrix-shaped
buffer (rank `numBd + 2`) must carry `mat`, and a vector-shaped buffer
(rank `numBd + 1`) must carry the canonical vector layout. -/
def bufOK (numBd : Nat) (mat : List Nat) (buf : Buf) : Bool :=
  (buf.dims.length != numBd + 2 || buf.layout == mat) &&
  (buf.dims.length != numBd + 1 || buf.layout == vecLayout numBd)

/-- Every operand and declared result buffer of a custom call obeys the
layout discipline. -/
def layoutsOK (numBd : Nat) (mat : List Nat) (c : CustomCall) : Bool :=
  (c.operands ++ c.results).all (bufOK numBd mat)

/-- The batch rank plus the two matrix dims recovers the operand rank. -/
theorem AShape.numBd_add_two (a : AShape) (h : 2 ≤ a.dims.length) :
    a.numBd + 2 = a.dims.length := by
  simp only [AShape.numBd, AShape.batchDims, List.length_take]
  omega

/-- A batch-plus-matrix dimension list has length `numBd + 2`. -/
theorem AShape.batchDims_append_two (a : AShape) (x y : Nat) :
    (a.batchDims ++ [x, y]).length = a.numBd + 2 := by
  simp [AShape.numBd]

/-- A batch-plus-vector dimension list has length `numBd + 1`. -/
theorem AShape.batchDims_append_one (a : AShape) (x : Nat) :
    (a.batchDims ++ [x]).length = a.numBd + 1 := by
  simp [AShape.numBd]

/-- C2: getrf's kernel choice is a pure function of `(batch, m, n)`: the
batched small-matrix kernel `hipblas_getrf_batched` is selected exactly when
`batch > 1 ∧ m = n ∧ m / batch ≤ 128`, the general `hipsolver_getrf`
otherwise; in particular batch 4 with m = n = 8 selects the batched kernel
and batch 1 with m = n = 1024 the general one. -/
theorem getrf_kernel_selection (a : AShape) (lwork : Nat)
    (h : 2 ≤ a.dims.length) :
    (kernelOf (getrf a lwork) =
       some (if a.batch > 1 ∧ a.m = a.n ∧ a.m / a.batch ≤ 128
             then "hipblas_getrf_batched" else "hipsolver_getrf")) ∧
    (descOf (getrf a lwork) =
       some (if a.batch > 1 ∧ a.m = a.n ∧ a.m / a.batch ≤ 128
             then Descriptor.getrfBatched a.dtype a.batch a.m
             else Descriptor.getrf a.dtype a.batch a.m a.n)) ∧
    kernelOf (getrf ⟨.f32, [4, 8, 8]⟩ 3) = some "hipblas_getrf_batched" ∧
    kernelOf (getrf ⟨.f32, [1024, 1024]⟩ 3) = some "hipsolver_getrf" := by
  have h2 : ¬ a.dims.length < 2 := by omega
  refine ⟨?_, ?_, by decide, by decide⟩ <;>
    by_cases hc : a.batch > 1 ∧ a.m = a.n ∧ a.m / a.batch ≤ 128
  · simp only [getrf, if_neg h2, if_pos hc, kernelOf, callOf, Option.map]
  · simp only [getrf, if_neg h2, if_neg hc, kernelOf, callOf, Option.map]
  · simp only [getrf, if_neg h2, if_pos hc, descOf]
  · simp only [getrf, if_neg h2, if_neg hc, descOf]

/-- C2 witness: the batched kernel is chosen for a concrete batch of four
8-by-8 matrices. -/
theorem getrf_kernel_selection_witness :
    kernelOf (getrf ⟨.f32, [4, 8, 8]⟩ 3) = some "hipblas_getrf_batched" :=
  (getrf_kernel_selection ⟨.f32, [4, 8, 8]⟩ 3 (by decide)).2.2.1

/-- C9: potrf on a `(10, 4, 4)` operand hands the caller exactly two
buffers, the transformed matrix of shape `(10, 4, 4)` and the `int32`
per-batch status vector of shape `(10,)`; the declared result tuple has a
third entry, the byte workspace, which is not among the returned buffers. -/
theorem potrf_batch10_outputs (lower : Bool) (lwork : Nat) :
    (bufsOf (potrf ⟨.f32, [10, 4, 4]⟩ lower lwork)).length = 2 ∧
    bufAt (potrf ⟨.f32, [10, 4, 4]⟩ lower lwork) 0 =
      ⟨.f32, [10, 4, 4], [1, 2, 0]⟩ ∧
    bufAt (potrf ⟨.f32, [10, 4, 4]⟩ lower lwork) 1 = ⟨.i32, [10], [0]⟩ ∧
    (resultsOf (potrf ⟨.f32, [10, 4, 4]⟩ lower lwork)).length = 3 ∧
    resAt (potrf ⟨.f32, [10, 4, 4]⟩ lower lwork) 2 = ⟨.i8, [lwork], [0]⟩ ∧
    (⟨.i8, [lwork], [0]⟩ : Buf) ∉
      bufsOf (potrf ⟨.f32, [10, 4, 4]⟩ lower lwork) := by
  simp [potrf, bufsOf, bufAt, resAt, resultsOf, callOf, noBuf, AShape.m,
    AShape.n, AShape.batchDims, AShape.numBd, matLayout, scalarLayout,
    revRange, List.range_succ]

/-- C6: a trsm call whose `a` shape is not the batch prefix of `b` followed
by `(k, k)`, or whose `a` dtype differs from `b`'s, raises the `ValueError`
carrying both shapes; no descriptor is built and no call is constructed. -/
theorem trsm_mismatch_rejected (a b : AShape) (ls lo tr co di : Bool)
    (lwork : Nat) (h : 2 ≤ b.dims.length)
    (hmis : b.batchDims ++ [if ls then b.m else b.n, if ls then b.m else b.n]
              ≠ a.dims ∨ a.dtype ≠ b.dtype) :
    trsm a b ls lo tr co di lwork = .error (.valueError a b) ∧
    descOf (trsm a b ls lo tr co di lwork) = none ∧
    callOf (trsm a b ls lo tr co di lwork) = none := by
  have h2 : ¬ b.dims.length < 2 := by omega
  rcases hmis with hmis | hmis <;>
    simp [trsm, h2, hmis, descOf, callOf]

/-- C6 witness: `a` with batch prefix `(2, 3)` against `b` with batch prefix
`(2, 4)` is rejected with the ValueError naming both shapes. -/
theorem trsm_mismatch_rejected_witness :
    trsm ⟨.f32, [2, 3, 3, 3]⟩ ⟨.f32, [2, 4, 3, 3]⟩ false false false false
      false 5 =
      .error (.valueError ⟨.f32, [2, 3, 3, 3]⟩ ⟨.f32, [2, 4, 3, 3]⟩) :=
  (trsm_mismatch_rejected ⟨.f32, [2, 3, 3, 3]⟩ ⟨.f32, [2, 4, 3, 3]⟩ false
    false false false false 5 (by decide) (by decide)).1

/-- C7 counterexample: a trsm call with `conj_a = True`, `trans_a = False`
whose shapes mismatch is rejected by the shape validation (`ValueError`
carrying the shapes), not by the unsupported-feature error, because the
shape check runs first; so not every such call yields the
unsupported-feature rejection. -/
theorem trsm_conj_counterexample :
    trsm ⟨.f32, [2, 2]⟩ ⟨.f32, [3, 3]⟩ false false false true false 5 =
      .error (.valueError ⟨.f32, [2, 2]⟩ ⟨.f32, [3, 3]⟩) ∧
    Err.isNotImpl (.valueError ⟨.f32, [2, 2]⟩ ⟨.f32, [3, 3]⟩) = false :=
  ⟨rfl, rfl⟩

/-- C7 amended: a trsm call with `conj_a = True` and `trans_a = False` whose
operands pass the shape/dtype validation is rejected with the
unsupported-feature `NotImplementedError` before any descriptor is built;
for every other combination of `conj_a` and `trans_a` the unsupported-feature
error is never raised. -/
theorem trsm_conj_rejection :
    (∀ (a b : AShape) (ls lo di : Bool) (lwork : Nat),
       2 ≤ b.dims.length →
       b.batchDims ++ [if ls then b.m else b.n, if ls then b.m else b.n]
         = a.dims →
       a.dtype = b.dtype →
       trsm a b ls lo false true di lwork =
         .error (.notImplemented
           "Conjugation without transposition not supported") ∧
       descOf (trsm a b ls lo false true di lwork) = none ∧
       callOf (trsm a b ls lo false true di lwork) = none) ∧
    (∀ (a b : AShape) (ls lo tr co di : Bool) (lwork : Nat) (e : Err),
       ¬ (co = true ∧ tr = false) →
       trsm a b ls lo tr co di lwork = .error e → e.isNotImpl = false) := by
  constructor
  · intro a b ls lo di lwork h hsh hdt
    have h2 : ¬ b.dims.length < 2 := by omega
    simp [trsm, h2, hsh, hdt, descOf, callOf]
  · intro a b ls lo tr co di lwork e hct he
    have hco : (co && !tr) = false := by
      cases co <;> cases tr <;> simp_all
    unfold trsm at he
    simp only [hco, Bool.false_eq_true, if_false] at he
    split_ifs at he <;> (injection he with h; subst h; rfl)

/-- C7 witness: with valid matching shapes, requesting conjugation without
transposition is rejected with the `NotImplementedError`. -/
theorem trsm_conj_rejection_witness :
    trsm ⟨.f32, [3, 3]⟩ ⟨.f32, [3, 3]⟩ false false false true false 5 =
      .error (.notImplemented
        "Conjugation without transposition not supported") :=
  (trsm_conj_rejection.1 ⟨.f32, [3, 3]⟩ ⟨.f32, [3, 3]⟩ false false false 5
    (by decide) (by decide) (by decide)).1

/-- C8 counterexample: potrf and syevd on a non-square `(3, 4)` operand fail
with a bare `AssertionError` from `assert m == n`, which carries no
description of the conflicting shapes, so the failure is not a descriptive
shape-mismatch error. -/
theorem square_assert_counterexample :
    potrf ⟨.f32, [3, 4]⟩ true 5 = .error .assertionFailed ∧
    syevd ⟨.f32, [3, 4]⟩ true 5 = .error .assertionFailed ∧
    Err.describesShapes .assertionFailed = false :=
  ⟨rfl, rfl, rfl⟩

/-- C8 amended: a potrf or syevd call on an operand whose trailing two
dimensions differ fails synchronously before any descriptor is built, but
with a bare assertion failure (`assert m == n`) that does not identify the
conflicting shapes. -/
theorem square_assert_rejection :
    (∀ (a : AShape) (lo : Bool) (lwork : Nat),
       2 ≤ a.dims.length → a.m ≠ a.n →
       potrf a lo lwork = .error .assertionFailed ∧
       descOf (potrf a lo lwork) = none ∧
       Err.describesShapes .assertionFailed = false) ∧
    (∀ (a : AShape) (lo : Bool) (lwork : Nat),
       2 ≤ a.dims.length → a.m ≠ a.n →
       syevd a lo lwork = .error .assertionFailed ∧
       descOf (syevd a lo lwork) = none ∧
       Err.describesShapes .assertionFailed = false) := by
  constructor
  · intro a lo lwork h hmn
    have h2 : ¬ a.dims.length < 2 := by omega
    simp [potrf, h2, hmn, descOf, Err.describesShapes]
  · intro a lo lwork h hmn
    have h2 : ¬ a.dims.length < 2 := by omega
    simp [syevd, h2, hmn, descOf, Err.describesShapes]

/-- C8 witness: the non-square `(3, 4)` operand triggers the assertion
failure in potrf. -/
theorem square_assert_rejection_witness :
    potrf ⟨.f32, [3, 4]⟩ true 5 = .error .assertionFailed :=
  (square_assert_rejection.1 ⟨.f32, [3, 4]⟩ true 5 (by decide) (by decide)).1

/-- C10: the syevd eigenvalues buffer and the gesvd singular-values buffer
are declared with the real counterpart of the operand's element type; in
particular complex64 yields float32, complex128 yields float64, and real
operands keep their own type. -/
theorem real_valued_spectra :
    (∀ (a : AShape) (lo : Bool) (lwork : Nat),
       2 ≤ a.dims.length → a.m = a.n →
       (bufAt (syevd a lo lwork) 1).dtype = a.dtype.realType) ∧
    (∀ (a : AShape) (fm cuv : Bool) (lwork : Nat),
       2 ≤ a.dims.length →
       (bufAt (gesvd a fm cuv lwork) 0).dtype = a.dtype.realType) ∧
    DType.realType .c64 = .f32 ∧ DType.realType .c128 = .f64 ∧
    DType.realType .f32 = .f32 ∧ DType.realType .f64 = .f64 := by
  refine ⟨?_, ?_, rfl, rfl, rfl, rfl⟩
  · intro a lo lwork h hmn
    have h2 : ¬ a.dims.length < 2 := by omega
    simp [syevd, h2, hmn, bufAt, bufsOf, noBuf]
  · intro a fm cuv lwork h
    have h2 : ¬ a.dims.length < 2 := by omega
    by_cases hmn : a.m < a.n <;> cases fm <;>
      simp [gesvd, gesvdFinish, h2, hmn, bufAt, bufsOf, noBuf]

/-- C10 witness: a complex64 Hermitian eigendecomposition declares float32
eigenvalues, and a complex64 SVD declares float32 singular values. -/
theorem real_valued_spectra_witness :
    (bufAt (syevd ⟨.c64, [4, 4]⟩ true 5) 1).dtype = DType.realType .c64 ∧
    (bufAt (gesvd ⟨.c64, [2, 3]⟩ true true 5) 0).dtype =
      DType.realType .c64 :=
  ⟨real_valued_spectra.1 ⟨.c64, [4, 4]⟩ true 5 (by decide) (by decide),
   real_valued_spectra.2.1 ⟨.c64, [2, 3]⟩ true true 5 (by decide)⟩

/-- C5: the descriptor builder always receives the resolved dimensions: for
gesvd with `m < n` it is queried with the swapped pair `(n, m)`, and for
getrf on the batched path it is queried with the single square side length
`m`. -/
theorem resolved_dims_to_builder :
    (∀ (a : AShape) (fm cuv : Bool) (lwork : Nat),
       2 ≤ a.dims.length → a.m < a.n →
       descOf (gesvd a fm cuv lwork) =
         some (.gesvd a.dtype a.batch a.n a.m cuv fm)) ∧
    (∀ (a : AShape) (lwork : Nat),
       2 ≤ a.dims.length →
       a.batch > 1 → a.m = a.n → a.m / a.batch ≤ 128 →
       descOf (getrf a lwork) =
         some (.getrfBatched a.dtype a.batch a.m)) := by
  constructor
  · intro a fm cuv lwork h hmn
    have h2 : ¬ a.dims.length < 2 := by omega
    cases fm <;> simp [gesvd, gesvdFinish, h2, hmn, descOf]
  · intro a lwork h hb hmn hsz
    have h2 : ¬ a.dims.length < 2 := by omega
    have hc : a.batch > 1 ∧ a.m = a.n ∧ a.m / a.batch ≤ 128 := ⟨hb, hmn, hsz⟩
    simp only [getrf, if_neg h2, if_pos hc, descOf]

/-- C5 witness: a `(2, 3)` SVD queries the builder with `(3, 2)`, and a
batch-4 LU of 8-by-8 matrices queries the batched builder with side 8. -/
theorem resolved_dims_to_builder_witness :
    descOf (gesvd ⟨.f32, [2, 3]⟩ true true 7) =
      some (.gesvd .f32 1 3 2 true true) ∧
    descOf (getrf ⟨.f32, [4, 8, 8]⟩ 3) = some (.getrfBatched .f32 4 8) :=
  ⟨resolved_dims_to_builder.1 ⟨.f32, [2, 3]⟩ true true 7 (by decide)
     (by decide),
   resolved_dims_to_builder.2 ⟨.f32, [4, 8, 8]⟩ 3 (by decide) (by decide)
     (by decide) (by decide)⟩

/-- C1: the gesvd transposed path is taken exactly when `m < n` — the
descriptor is then built with the swapped dimensions and the raw tuple
elements 2 and 3 are read with the left/right roles exchanged — and with
`full_matrices = True` the returned left singular-vector buffer always has
trailing shape `(m, m)` and the right one `(n, n)`, matching the original
un-transposed operand. -/
theorem gesvd_transpose_and_orientation (a : AShape) (cuv : Bool)
    (lwork : Nat) (h : 2 ≤ a.dims.length) :
    descOf (gesvd a true cuv lwork) =
      some (if a.m < a.n then Descriptor.gesvd a.dtype a.batch a.n a.m cuv true
            else Descriptor.gesvd a.dtype a.batch a.m a.n cuv true) ∧
    (bufAt (gesvd a true cuv lwork) 1).dims = a.batchDims ++ [a.m, a.m] ∧
    (bufAt (gesvd a true cuv lwork) 2).dims = a.batchDims ++ [a.n, a.n] ∧
    (a.m < a.n →
       bufAt (gesvd a true cuv lwork) 1 = resAt (gesvd a true cuv lwork) 3 ∧
       bufAt (gesvd a true cuv lwork) 2 = resAt (gesvd a true cuv lwork) 2) ∧
    (¬ a.m < a.n →
       bufAt (gesvd a true cuv lwork) 1 = resAt (gesvd a true cuv lwork) 2 ∧
       bufAt (gesvd a true cuv lwork) 2 = resAt (gesvd a true cuv lwork) 3) := by
  have h2 : ¬ a.dims.length < 2 := by omega
  by_cases hmn : a.m < a.n <;>
    simp [gesvd, gesvdFinish, h2, hmn, descOf, callOf, bufAt, bufsOf, resAt,
      resultsOf, noBuf]

/-- C1 witness: on a `(2, 3)` operand the transposed path is taken and full
singular-vector buffers come back as `(2, 2)` and `(3, 3)`. -/
theorem gesvd_transpose_and_orientation_witness :
    (bufAt (gesvd ⟨.f32, [2, 3]⟩ true true 7) 1).dims =
      (⟨.f32, [2, 3]⟩ : AShape).batchDims ++
        [(⟨.f32, [2, 3]⟩ : AShape).m, (⟨.f32, [2, 3]⟩ : AShape).m] :=
  (gesvd_transpose_and_orientation ⟨.f32, [2, 3]⟩ true 7 (by decide)).2.1

/-- C4: with `full_matrices = False` the returned left singular-vector
buffer is sliced to trailing shape `(m, min(m, n))` and the right one to
`(min(m, n), n)`, on both the transposed and the direct path. -/
theorem gesvd_economy_slices (a : AShape) (cuv : Bool) (lwork : Nat)
    (h : 2 ≤ a.dims.length) :
    (bufAt (gesvd a false cuv lwork) 1).dims =
      a.batchDims ++ [a.m, min a.m a.n] ∧
    (bufAt (gesvd a false cuv lwork) 2).dims =
      a.batchDims ++ [min a.m a.n, a.n] := by
  have h2 : ¬ a.dims.length < 2 := by omega
  by_cases hmn : a.m < a.n <;>
    simp [gesvd, gesvdFinish, h2, hmn, bufAt, bufsOf, sliceTo, noBuf]

/-- C4 witness: the `(3, 2)` direct path and the `(2, 3)` transposed path
both produce economy slices of the stated trailing shapes. -/
theorem gesvd_economy_slices_witness :
    (bufAt (gesvd ⟨.f32, [3, 2]⟩ false true 7) 1).dims =
      (⟨.f32, [3, 2]⟩ : AShape).batchDims ++
        [(⟨.f32, [3, 2]⟩ : AShape).m,
         min (⟨.f32, [3, 2]⟩ : AShape).m (⟨.f32, [3, 2]⟩ : AShape).n] ∧
    (bufAt (gesvd ⟨.f32, [2, 3]⟩ false true 7) 2).dims =
      (⟨.f32, [2, 3]⟩ : AShape).batchDims ++
        [min (⟨.f32, [2, 3]⟩ : AShape).m (⟨.f32, [2, 3]⟩ : AShape).n,
         (⟨.f32, [2, 3]⟩ : AShape).n] :=
  ⟨(gesvd_economy_slices ⟨.f32, [3, 2]⟩ true 7 (by decide)).1,
   (gesvd_economy_slices ⟨.f32, [2, 3]⟩ true 7 (by decide)).2⟩

/-- C3 counterexample: for gesvd on a `(2, 3)` operand (zero batch
dimensions, matrix-shaped buffers), the transposed path declares the
operand buffer with layout `(1, 0)`, not the canonical
`(num_bd, num_bd + 1, ...) = (0, 1)`; so not every matrix-shaped buffer
gets the canonical layout. -/
theorem gesvd_layout_counterexample :
    ((operandsOf (gesvd ⟨.f32, [2, 3]⟩ true true 7)).getD 0 noBuf).dims.length
      = 0 + 2 ∧
    ((operandsOf (gesvd ⟨.f32, [2, 3]⟩ true true 7)).getD 0 noBuf).layout
      = [1, 0] ∧
    matLayout 0 = [0, 1] ∧ ([1, 0] : List Nat) ≠ [0, 1] := by
  refine ⟨rfl, rfl, rfl, by decide⟩

/-- A matrix-shaped buffer carrying the operation's matrix layout obeys the
layout discipline. -/
theorem bufOK_matrix (numBd : Nat) (mat : List Nat) (d : DType)
    (dims : List Nat) (h : dims.length = numBd + 2) :
    bufOK numBd mat ⟨d, dims, mat⟩ = true := by
  simp only [bufOK, h, Bool.and_eq_true, Bool.or_eq_true, bne_iff_ne, ne_eq,
    beq_iff_eq]
  exact ⟨Or.inr trivial, Or.inl (by omega)⟩

/-- A vector-shaped buffer carrying the canonical vector layout obeys the
layout discipline. -/
theorem bufOK_vector (numBd : Nat) (mat : List Nat) (d : DType)
    (dims : List Nat) (h : dims.length = numBd + 1) :
    bufOK numBd mat ⟨d, dims, vecLayout numBd⟩ = true := by
  simp only [bufOK, h, Bool.and_eq_true, Bool.or_eq_true, bne_iff_ne, ne_eq,
    beq_iff_eq]
  exact ⟨Or.inl (by omega), Or.inr trivial⟩

/-- A batch-scalar buffer (rank `numBd`) vacuously obeys the layout
discipline, whatever layout it carries. -/
theorem bufOK_scalar (numBd : Nat) (mat : List Nat) (d : DType)
    (dims l : List Nat) (h : dims.length = numBd) :
    bufOK numBd mat ⟨d, dims, l⟩ = true := by
  simp only [bufOK, h, Bool.and_eq_true, Bool.or_eq_true, bne_iff_ne, ne_eq,
    beq_iff_eq]
  exact ⟨Or.inl (by omega), Or.inl (by omega)⟩

/-- A flat 1-D workspace buffer with layout `(0,)` obeys the layout
discipline. -/
theorem bufOK_flat (numBd : Nat) (mat : List Nat) (d : DType) (w : Nat) :
    bufOK numBd mat ⟨d, [w], [0]⟩ = true := by
  rcases numBd with _ | k
  · simp only [bufOK, List.length_cons, List.length_nil, Bool.and_eq_true,
      Bool.or_eq_true, bne_iff_ne, ne_eq, beq_iff_eq]
    exact ⟨Or.inl (by omega), Or.inr rfl⟩
  · simp only [bufOK, List.length_cons, List.length_nil, Bool.and_eq_true,
      Bool.or_eq_true, bne_iff_ne, ne_eq, beq_iff_eq]
    exact ⟨Or.inl (by omega), Or.inl (by omega)⟩

/-- The economy-slicing tail never changes the custom call itself. -/
theorem callOf_gesvdFinish (desc : Descriptor) (call : CustomCall)
    (s u vt info : Buf) (batchDims : List Nat) (m n : Nat) (fm : Bool) :
    callOf (gesvdFinish desc call s u vt info batchDims m n fm) = some call := by
  unfold gesvdFinish
  cases fm <;> simp [callOf]

/-- C3 amended: every matrix-shaped operand or result buffer declared by any
of the seven operations carries the canonical matrix layout
`(num_bd, num_bd + 1, num_bd - 1, ..., 0)`, except in gesvd's transposed
path (`m < n`) where matrix buffers carry `(num_bd + 1, num_bd,
num_bd - 1, ..., 0)`; every vector-shaped buffer carries
`(num_bd, num_bd - 1, ..., 0)` in all operations and paths. -/
theorem canonical_layouts_amended :
    (∀ (a b : AShape) (ls lo tr co di : Bool) (lw : Nat),
       optAll (layoutsOK b.numBd (matLayout b.numBd))
         (callOf (trsm a b ls lo tr co di lw)) = true) ∧
    (∀ (a : AShape) (lo : Bool) (lw : Nat),
       optAll (layoutsOK a.numBd (matLayout a.numBd))
         (callOf (potrf a lo lw)) = true) ∧
    (∀ (a : AShape) (lw : Nat),
       optAll (layoutsOK a.numBd (matLayout a.numBd))
         (callOf (getrf a lw)) = true) ∧
    (∀ (a : AShape) (lw : Nat),
       optAll (layoutsOK a.numBd (matLayout a.numBd))
         (callOf (geqrf a lw)) = true) ∧
    (∀ (a tau : AShape) (lw : Nat),
       optAll (layoutsOK a.numBd (matLayout a.numBd))
         (callOf (orgqr a tau lw)) = true) ∧
    (∀ (a : AShape) (lo : Bool) (lw : Nat),
       optAll (layoutsOK a.numBd (matLayout a.numBd))
         (callOf (syevd a lo lw)) = true) ∧
    (∀ (a : AShape) (fm cuv : Bool) (lw : Nat),
       optAll (layoutsOK a.numBd
           (if a.m < a.n then matLayoutT a.numBd else matLayout a.numBd))
         (callOf (gesvd a fm cuv lw)) = true) := by
  refine ⟨?_, ?_, ?_, ?_, ?_, ?_, ?_⟩
  · -- trsm
    intro a b ls lo tr co di lw
    by_cases h2 : b.dims.length < 2
    · simp only [trsm, if_pos h2, callOf, optAll]
    · by_cases hmis : b.batchDims ++ [if ls then b.m else b.n,
          if ls then b.m else b.n] ≠ a.dims ∨ a.dtype ≠ b.dtype
      · simp only [trsm, if_neg h2, if_pos hmis, callOf, optAll]
      · push_neg at hmis
        by_cases hco : (co && !tr) = true
        · simp only [trsm, if_neg h2, if_neg (not_or.mpr
            ⟨not_not.mpr hmis.1, not_not.mpr hmis.2⟩), if_pos hco, callOf,
            optAll]
        · simp only [trsm, if_neg h2, if_neg (not_or.mpr
            ⟨not_not.mpr hmis.1, not_not.mpr hmis.2⟩), if_neg hco, callOf,
            optAll]
          simp only [layoutsOK, List.cons_append, List.nil_append,
            List.all_cons, List.all_nil, Bool.and_eq_true, and_true]
          refine ⟨?_, ?_, ?_, ?_, ?_⟩
          · exact bufOK_matrix _ _ _ _
              (by rw [← hmis.1]; exact AShape.batchDims_append_two b _ _)
          · exact bufOK_matrix _ _ _ _ ((AShape.numBd_add_two b (by omega)).symm)
          · exact bufOK_matrix _ _ _ _ ((AShape.numBd_add_two b (by omega)).symm)
          · exact bufOK_flat _ _ _ _
          · exact bufOK_flat _ _ _ _
  · -- potrf
    intro a lo lw
    by_cases h2 : a.dims.length < 2
    · simp only [potrf, if_pos h2, callOf, optAll]
    · by_cases hmn : a.m ≠ a.n
      · simp only [potrf, if_neg h2, if_pos hmn, callOf, optAll]
      · simp only [potrf, if_neg h2, if_neg hmn, callOf, optAll, layoutsOK,
          List.cons_append, List.nil_append, List.all_cons, List.all_nil,
          Bool.and_eq_true, and_true]
        refine ⟨?_, ?_, ?_, ?_⟩
        · exact bufOK_matrix _ _ _ _ (AShape.batchDims_append_two a _ _)
        · exact bufOK_matrix _ _ _ _ (AShape.batchDims_append_two a _ _)
        · exact bufOK_scalar _ _ _ _ _ rfl
        · exact bufOK_flat _ _ _ _
  · -- getrf
    intro a lw
    by_cases h2 : a.dims.length < 2
    · simp only [getrf, if_pos h2, callOf, optAll]
    · by_cases hc : a.batch > 1 ∧ a.m = a.n ∧ a.m / a.batch ≤ 128
      · simp only [getrf, if_neg h2, if_pos hc, callOf, optAll, layoutsOK,
          List.cons_append, List.nil_append, List.all_cons, List.all_nil,
          Bool.and_eq_true, and_true]
        refine ⟨?_, ?_, ?_, ?_, ?_⟩
        · exact bufOK_matrix _ _ _ _ (AShape.batchDims_append_two a _ _)
        · exact bufOK_matrix _ _ _ _ (AShape.batchDims_append_two a _ _)
        · exact bufOK_vector _ _ _ _ (AShape.batchDims_append_one a _)
        · exact bufOK_scalar _ _ _ _ _ rfl
        · exact bufOK_flat _ _ _ _
      · simp only [getrf, if_neg h2, if_neg hc, callOf, optAll, layoutsOK,
          List.cons_append, List.nil_append, List.all_cons, List.all_nil,
          Bool.and_eq_true, and_true]
        refine ⟨?_, ?_, ?_, ?_, ?_⟩
        · exact bufOK_matrix _ _ _ _ (AShape.batchDims_append_two a _ _)
        · exact bufOK_matrix _ _ _ _ (AShape.batchDims_append_two a _ _)
        · exact bufOK_vector _ _ _ _ (AShape.batchDims_append_one a _)
        · exact bufOK_scalar _ _ _ _ _ rfl
        · exact bufOK_flat _ _ _ _
  · -- geqrf
    intro a lw
    by_cases h2 : a.dims.length < 2
    · simp only [geqrf, if_pos h2, callOf, optAll]
    · simp only [geqrf, if_neg h2, callOf, optAll, layoutsOK,
        List.cons_append, List.nil_append, List.all_cons, List.all_nil,
        Bool.and_eq_true, and_true]
      refine ⟨?_, ?_, ?_, ?_, ?_⟩
      · exact bufOK_matrix _ _ _ _ (AShape.batchDims_append_two a _ _)
      · exact bufOK_matrix _ _ _ _ (AShape.batchDims_append_two a _ _)
      · exact bufOK_vector _ _ _ _ (AShape.batchDims_append_one a _)
      · exact bufOK_scalar _ _ _ _ _ rfl
      · exact bufOK_flat _ _ _ _
  · -- orgqr
    intro a tau lw
    by_cases h2 : a.dims.length < 2
    · simp only [orgqr, if_pos h2, callOf, optAll]
    · by_cases htau : tau.dims.take (tau.dims.length - 1) ≠ a.batchDims
      · simp only [orgqr, if_neg h2, if_pos htau, callOf, optAll]
      · by_cases h0 : tau.dims.length = 0
        · simp only [orgqr, if_neg h2, if_neg htau, if_pos h0, callOf, optAll]
        · simp only [orgqr, if_neg h2, if_neg htau, if_neg h0, callOf,
            optAll, layoutsOK, List.cons_append, List.nil_append,
            List.all_cons, List.all_nil, Bool.and_eq_true, and_true]
          refine ⟨?_, ?_, ?_, ?_, ?_⟩
          · exact bufOK_matrix _ _ _ _ (AShape.batchDims_append_two a _ _)
          · exact bufOK_vector _ _ _ _ (AShape.batchDims_append_one a _)
          · exact bufOK_matrix _ _ _ _ (AShape.batchDims_append_two a _ _)
          · exact bufOK_scalar _ _ _ _ _ rfl
          · exact bufOK_flat _ _ _ _
  · -- syevd
    intro a lo lw
    by_cases h2 : a.dims.length < 2
    · simp only [syevd, if_pos h2, callOf, optAll]
    · by_cases hmn : a.m ≠ a.n
      · simp only [syevd, if_neg h2, if_pos hmn, callOf, optAll]
      · simp only [syevd, if_neg h2, if_neg hmn, callOf, optAll, layoutsOK,
          List.cons_append, List.nil_append, List.all_cons, List.all_nil,
          Bool.and_eq_true, and_true]
        refine ⟨?_, ?_, ?_, ?_, ?_⟩
        · exact bufOK_matrix _ _ _ _ ((AShape.numBd_add_two a (by omega)).symm)
        · exact bufOK_matrix _ _ _ _ ((AShape.numBd_add_two a (by omega)).symm)
        · exact bufOK_vector _ _ _ _ (AShape.batchDims_append_one a _)
        · exact bufOK_scalar _ _ _ _ _ rfl
        · exact bufOK_flat _ _ _ _
  · -- gesvd
    intro a fm cuv lw
    by_cases h2 : a.dims.length < 2
    · simp only [gesvd, if_pos h2, callOf, optAll]
    · by_cases hmn : a.m < a.n
      · simp only [gesvd, if_neg h2, if_pos hmn, callOf_gesvdFinish, optAll,
          layoutsOK, List.cons_append, List.nil_append, List.all_cons,
          List.all_nil, Bool.and_eq_true, and_true]
        refine ⟨?_, ?_, ?_, ?_, ?_, ?_, ?_⟩
        · exact bufOK_matrix _ _ _ _ (AShape.batchDims_append_two a _ _)
        · exact bufOK_matrix _ _ _ _ (AShape.batchDims_append_two a _ _)
        · exact bufOK_vector _ _ _ _ (AShape.batchDims_append_one a _)
        · exact bufOK_matrix _ _ _ _ (AShape.batchDims_append_two a _ _)
        · exact bufOK_matrix _ _ _ _ (AShape.batchDims_append_two a _ _)
        · exact bufOK_scalar _ _ _ _ _ rfl
        · exact bufOK_flat _ _ _ _
      · simp only [gesvd, if_neg h2, if_neg hmn, callOf_gesvdFinish, optAll,
          layoutsOK, List.cons_append, List.nil_append, List.all_cons,
          List.all_nil, Bool.and_eq_true, and_true]
        refine ⟨?_, ?_, ?_, ?_, ?_, ?_, ?_⟩
        · exact bufOK_matrix _ _ _ _ (AShape.batchDims_append_two a _ _)
        · exact bufOK_matrix _ _ _ _ (AShape.batchDims_append_two a _ _)
        · exact bufOK_vector _ _ _ _ (AShape.batchDims_append_one a _)
        · exact bufOK_matrix _ _ _ _ (AShape.batchDims_append_two a _ _)
        · exact bufOK_matrix _ _ _ _ (AShape.batchDims_append_two a _ _)
        · exact bufOK_scalar _ _ _ _ _ rfl
        · exact bufOK_flat _ _ _ _
